import Mathlib

/-!
Verification of the lesson/note data model of the `vscode-code-highlight`
repository, as a shallow embedding in Lean.

The embedding mirrors `src/lessonManager.ts` (Lesson Store),
`src/notesPanel.ts` (Annotation Session commit), `src/decorationManager.ts`
(range accumulation) and `src/notesReview.ts` (Review Navigator).

Modelling conventions:
- The on-disk store is a `Store` value: the master-state file is
  `Option (Option LessonsMasterState)` (`none` = file absent,
  `some none` = file present but not parseable as JSON,
  `some (some s)` = file parses to `s`), and the per-lesson body files are a
  map `Int → Option (Option Lesson)` keyed by lesson id with the same
  three-valued convention.
- `JSON.stringify` followed by `JSON.parse` on the record types involved is
  modelled as the identity, so writing a value stores `some (some v)`.
- JavaScript numbers used as ids and line numbers are modelled as `Int`.
- Host-editor objects (`vscode.TextEditor`, decoration handles, webview
  panels) are external collaborators; where a field merely holds such an
  object it is modelled by a type parameter, and the host API
  `vscode.workspace.asRelativePath` is passed in as a function parameter.
- Thrown `Error(msg)` values are modelled with `Except String`; calls to
  `showInformationMessage` / `showErrorMessage` are modelled by an
  `Option String` component of the result.
-/

/-- A line range `[start, end]` of zero-based line numbers, from `types.ts`
(`type LineRange = [number, number]`). -/
abbrev LineRange := Int × Int

/-- Executable model of the JavaScript builtin `String.prototype.trim`
(drop whitespace from both ends), used by `createLesson` and
`saveNoteToLesson`. -/
def jsTrim (s : String) : String :=
  ⟨((s.data.dropWhile Char.isWhitespace).reverse.dropWhile Char.isWhitespace).reverse⟩

/-- A lecture note, from `types.ts` (`GeneralNote | CodeNote`). -/
inductive LectureNote where
  | general (markdown : String)
  | code (file : String) (ranges : List LineRange) (markdown : String)
  deriving DecidableEq

/-- A lesson, from `types.ts` (`interface Lesson`). -/
structure Lesson where
  id : Int
  title : String
  notes : List LectureNote
  deriving DecidableEq

/-- A lesson summary, from `types.ts` (`interface LessonSummary`). -/
structure LessonSummary where
  id : Int
  title : String
  deriving DecidableEq

/-- The master state, from `types.ts` (`interface LessonsMasterState`). -/
structure LessonsMasterState where
  activeLessonId : Option Int
  lessons : List LessonSummary
  deriving DecidableEq

/-- The persisted file store visible to `LessonManager`: the master-state
file `.vscode/lessons.json` and the body files
`.vscode/lessons/lesson-<id>.json`, each either absent (`none`), present
but unparsable (`some none`), or parsed (`some (some v)`). -/
structure Store where
  masterFile : Option (Option LessonsMasterState)
  lessonFiles : Int → Option (Option Lesson)

/-- The default master state returned when the file is absent or corrupt
(`lessonManager.ts`, `loadMasterState`). -/
def emptyMasterState : LessonsMasterState := ⟨none, []⟩

/-- Embedding of `LessonManager.loadMasterState`: absent or unparsable
content folds to the default state. -/
def loadMasterState (st : Store) : LessonsMasterState :=
  match st.masterFile with
  | some (some s) => s
  | some none => emptyMasterState
  | none => emptyMasterState

/-- Embedding of `LessonManager.saveMasterState`: the written JSON parses
back to the same value. -/
def saveMasterState (st : Store) (s : LessonsMasterState) : Store :=
  { st with masterFile := some (some s) }

/-- Writing a lesson body file (`fs.writeFileSync` of `JSON.stringify`). -/
def writeLessonFile (st : Store) (id : Int) (lesson : Lesson) : Store :=
  { st with lessonFiles := fun j => if j = id then some (some lesson) else st.lessonFiles j }

/-- Removing a lesson body file (`fs.unlinkSync`; removing an absent file
is also fine since the source guards with `fs.existsSync`). -/
def removeLessonFile (st : Store) (id : Int) : Store :=
  { st with lessonFiles := fun j => if j = id then none else st.lessonFiles j }

/-- The fold underlying `Math.max(...state.lessons.map(l => l.id))`. -/
def maxLessonId (ls : List LessonSummary) (acc : Int) : Int :=
  match ls with
  | [] => acc
  | l :: rest => maxLessonId rest (max acc l.id)

/-- Embedding of `LessonManager.getNextLessonId`: `1` when no lessons
exist, otherwise the highest existing id plus one. -/
def getNextLessonId (st : Store) : Int :=
  let state := loadMasterState st
  match state.lessons with
  | [] => 1
  | l :: rest => maxLessonId rest l.id + 1

/-- Embedding of `LessonManager.createLesson`: trims the title, assigns
the next id, writes the body file, appends the summary, activates the new
lesson and persists the master state. -/
def createLesson (st : Store) (title : String) : Store × Lesson :=
  let state := loadMasterState st
  let newId := getNextLessonId st
  let lesson : Lesson := ⟨newId, jsTrim title, []⟩
  let st1 := writeLessonFile st newId lesson
  let newState : LessonsMasterState :=
    ⟨some newId, state.lessons ++ [⟨newId, lesson.title⟩]⟩
  (saveMasterState st1 newState, lesson)

/-- Embedding of `LessonManager.getLessonById`: `none` when the body file
is absent or unparsable. -/
def getLessonById (st : Store) (id : Int) : Option Lesson :=
  match st.lessonFiles id with
  | some (some l) => some l
  | some none => none
  | none => none

/-- Embedding of `LessonManager.getActiveLesson`: resolves
`activeLessonId` through `getLessonById`. -/
def getActiveLesson (st : Store) : Option Lesson :=
  let state := loadMasterState st
  match state.activeLessonId with
  | none => none
  | some id => getLessonById st id

/-- Embedding of `LessonManager.getAllLessons`: the summary list of the
master state, verbatim. -/
def getAllLessons (st : Store) : List LessonSummary :=
  (loadMasterState st).lessons

/-- Embedding of `LessonManager.setActiveLesson`. -/
def setActiveLesson (st : Store) (id : Int) : Except String Store :=
  let state := loadMasterState st
  match state.lessons.find? (fun l => l.id == id) with
  | none => .error s!"Lesson with ID {id} does not exist"
  | some _ => .ok (saveMasterState st ⟨some id, state.lessons⟩)

/-- Embedding of `LessonManager.saveLesson`: overwrite the body file keyed
by `lesson.id`; the master state is not touched. -/
def saveLesson (st : Store) (lesson : Lesson) : Store :=
  writeLessonFile st lesson.id lesson

/-- Embedding of `LessonManager.deleteLesson`: error if the id is not in
the summary list; otherwise remove the body file, splice the summary out,
and reassign `activeLessonId` to the first remaining summary (or `null`)
when the deleted lesson was active. -/
def deleteLesson (st : Store) (id : Int) : Except String Store :=
  let state := loadMasterState st
  match state.lessons.findIdx? (fun l => l.id == id) with
  | none => .error s!"Lesson with ID {id} does not exist"
  | some lessonIndex =>
    let st1 := removeLessonFile st id
    let remaining := state.lessons.eraseIdx lessonIndex
    let newActive : Option Int :=
      if state.activeLessonId = some id then
        match remaining with
        | [] => none
        | l :: _ => some l.id
      else
        state.activeLessonId
    .ok (saveMasterState st1 ⟨newActive, remaining⟩)

/-- The accumulated selection of an Annotation Session, from
`notesPanel.ts` (`interface SelectionInfo`). -/
structure SelectionInfo where
  file : String
  ranges : List LineRange
  deriving DecidableEq

/-- Embedding of `saveNoteToLesson` in `notesPanel.ts`: re-reads the
active lesson, builds a general note when no ranges were accumulated,
otherwise filters out ranges with `start > end`, fails when nothing
remains, and appends the note before saving the lesson.
`relPath` stands for the external host API `vscode.workspace.asRelativePath`. -/
def saveNoteToLesson (relPath : String → String) (st : Store)
    (markdown : String) (selection : Option SelectionInfo) :
    Except String (Store × LectureNote) :=
  match getActiveLesson st with
  | none => .error "No active lesson"
  | some activeLesson =>
    let newNote? : Except String LectureNote :=
      match selection with
      | none => .ok (.general (jsTrim markdown))
      | some sel =>
        if sel.ranges = [] then
          .ok (.general (jsTrim markdown))
        else
          let validatedRanges := sel.ranges.filter (fun r => if r.1 > r.2 then false else true)
          if validatedRanges = [] then
            .error "No valid ranges provided"
          else
            .ok (.code (relPath sel.file) validatedRanges (jsTrim markdown))
    match newNote? with
    | .error e => .error e
    | .ok newNote =>
      let updated := { activeLesson with notes := activeLesson.notes ++ [newNote] }
      .ok (saveLesson st updated, newNote)

/-- The range-accumulation state of `DecorationManager` in
`decorationManager.ts`. `Ed` stands for the host type
`vscode.TextEditor`; the decoration handles the class also holds are
host-side visuals with no bearing on the accumulated ranges. -/
structure DecorationState (Ed : Type) where
  currentRanges : List LineRange
  currentEditor : Option Ed

/-- Embedding of `DecorationManager.clearDecorations`: resets the stored
ranges and editor. -/
def clearDecorations {Ed : Type} (d : DecorationState Ed) : DecorationState Ed :=
  { d with currentRanges := [], currentEditor := none }

/-- Embedding of `DecorationManager.applyDecorationsForRanges`: clears,
then stores a copy of `ranges` and the editor (the early return on an
empty `ranges` happens after both fields are stored). -/
def applyDecorationsForRanges {Ed : Type} (d : DecorationState Ed) (editor : Ed)
    (ranges : List LineRange) : DecorationState Ed :=
  let d1 := clearDecorations d
  { d1 with currentRanges := ranges, currentEditor := some editor }

/-- Embedding of `DecorationManager.addRange`: no-op without a stored
editor; otherwise the range is appended unless an identical pair already
exists. -/
def addRange {Ed : Type} (d : DecorationState Ed) (range : LineRange) : DecorationState Ed :=
  match d.currentEditor with
  | none => d
  | some ed =>
    let alreadyExists := d.currentRanges.any (fun p => p.1 == range.1 && p.2 == range.2)
    if alreadyExists then d
    else applyDecorationsForRanges d ed (d.currentRanges ++ [range])

/-- The navigation state of `NotesReviewController` in `notesReview.ts`:
the snapshot taken at `start`, the cursor, and whether the markdown
preview pane was already opened this session. An empty `lessonNotes` is
the `Inactive` state (`stop` resets to it). -/
structure ReviewState where
  lessonNotes : List LectureNote
  currentIndex : Int
  previewOpened : Bool
  deriving DecidableEq

/-- Embedding of `NotesReviewController.start`: reports when there is no
active lesson or it has no notes; otherwise snapshots the notes and moves
the cursor to `0`. The `Option String` is the message shown, if any. -/
def ReviewState.start (s : ReviewState) (st : Store) : ReviewState × Option String :=
  match getActiveLesson st with
  | none => (s, some "No active lesson. Please create or select a lesson first.")
  | some activeLesson =>
    if activeLesson.notes.length = 0 then
      (s, some "No lecture notes found in the active lesson.")
    else
      (⟨activeLesson.notes, 0, false⟩, none)

/-- Embedding of `NotesReviewController.stop`: back to the `Inactive`
state. -/
def ReviewState.stop (s : ReviewState) : ReviewState :=
  { s with lessonNotes := [], currentIndex := 0, previewOpened := false }

/-- Embedding of `NotesReviewController.next`: silent no-op when no
review is in progress; notice at the last note; otherwise advance. -/
def ReviewState.next (s : ReviewState) : ReviewState × Option String :=
  if s.lessonNotes.length = 0 then
    (s, none)
  else if s.currentIndex ≥ (s.lessonNotes.length : Int) - 1 then
    (s, some "Reached the end of the lecture notes.")
  else
    ({ s with currentIndex := s.currentIndex + 1 }, none)

/-- Embedding of `NotesReviewController.prev`: silent no-op when no
review is in progress; notice at the first note; otherwise retreat. -/
def ReviewState.prev (s : ReviewState) : ReviewState × Option String :=
  if s.lessonNotes.length = 0 then
    (s, none)
  else if s.currentIndex ≤ 0 then
    (s, some "Already at the first lecture note.")
  else
    ({ s with currentIndex := s.currentIndex - 1 }, none)

/-- A store whose master-state file does not exist and that has no lesson
body files: the fresh-workspace starting point. -/
def store0 : Store := ⟨none, fun _ => none⟩

/-- A store holding two lessons with ids 1 and 2, lesson 1 active; used to
instantiate theorems at concrete inputs. -/
def storeTwoLessons : Store :=
  ⟨some (some ⟨some 1, [⟨1, "A"⟩, ⟨2, "B"⟩]⟩),
   fun j =>
     if j = 1 then some (some ⟨1, "A", []⟩)
     else if j = 2 then some (some ⟨2, "B", []⟩)
     else none⟩

/-- Reading the master state back directly after writing it yields the
written value. -/
theorem loadMasterState_saveMasterState (st : Store) (s : LessonsMasterState) :
    loadMasterState (saveMasterState st s) = s := rfl

/-- The accumulator is a lower bound of the id fold. -/
theorem maxLessonId_ge_acc (ls : List LessonSummary) (acc : Int) :
    acc ≤ maxLessonId ls acc := by
  induction ls generalizing acc with
  | nil => simp [maxLessonId]
  | cons l rest ih =>
    calc acc ≤ max acc l.id := le_max_left _ _
      _ ≤ maxLessonId rest (max acc l.id) := ih _
      _ = maxLessonId (l :: rest) acc := rfl

/-- Every member id is bounded by the id fold. -/
theorem maxLessonId_ge_mem (ls : List LessonSummary) (acc : Int) (s : LessonSummary)
    (hs : s ∈ ls) : s.id ≤ maxLessonId ls acc := by
  induction ls generalizing acc with
  | nil => cases hs
  | cons l rest ih =>
    rcases List.mem_cons.mp hs with h | h
    · subst h
      calc s.id ≤ max acc s.id := le_max_right _ _
        _ ≤ maxLessonId rest (max acc s.id) := maxLessonId_ge_acc _ _
        _ = maxLessonId (s :: rest) acc := rfl
    · show s.id ≤ maxLessonId rest (max acc l.id)
      exact ih (max acc l.id) h

/-- C1, counterexample: starting from an empty store, `createLesson "A"`
returns id 1; deleting that lesson and creating again returns id 1 a
second time, so a returned id is not strictly greater than every
previously-assigned id and a deleted lesson's id is reassigned. -/
theorem createLesson_id_reuse_after_delete :
    (createLesson store0 "A").2.id = 1
    ∧ (deleteLesson (createLesson store0 "A").1 1).map (fun st => (createLesson st "B").2.id)
        = Except.ok 1 := by
  exact ⟨rfl, rfl⟩

/-- C1 (amended): every id returned by `createLesson` is strictly greater
than every id present in the master state at the time of the call, and the
new lesson's summary is recorded in the resulting master state (so ids
strictly increase over `createLesson` sequences with no interleaved
delete). -/
theorem createLesson_id_strictly_increasing (st : Store) (title : String)
    (s : LessonSummary) (hmem : s ∈ (loadMasterState st).lessons) :
    s.id < (createLesson st title).2.id
    ∧ (⟨(createLesson st title).2.id, (createLesson st title).2.title⟩ : LessonSummary)
        ∈ (loadMasterState (createLesson st title).1).lessons := by
  constructor
  · show s.id < getNextLessonId st
    simp only [getNextLessonId]
    rcases h : (loadMasterState st).lessons with _ | ⟨l, rest⟩
    · rw [h] at hmem; cases hmem
    · rw [h] at hmem
      show s.id < maxLessonId rest l.id + 1
      rcases List.mem_cons.mp hmem with rfl | hr
      · have := maxLessonId_ge_acc rest s.id
        omega
      · have := maxLessonId_ge_mem rest l.id s hr
        omega
  · simp [createLesson, saveMasterState, loadMasterState]

/-- C1 witness: the amended monotonicity theorem applied after one
concrete `createLesson` call: the recorded id 1 is strictly below the
next returned id. -/
theorem createLesson_id_strictly_increasing_witness :
    (⟨1, "A"⟩ : LessonSummary).id < (createLesson (createLesson store0 "A").1 "B").2.id :=
  (createLesson_id_strictly_increasing (createLesson store0 "A").1 "B" ⟨1, "A"⟩ (by decide)).1

/-- C2, counterexample: `createLesson` performs no emptiness validation:
on the whitespace-only title `" "` it does not fail, returns a lesson
with the empty title, and writes both the summary and the body file. -/
theorem createLesson_accepts_empty_title :
    (createLesson store0 " ").2 = (⟨1, "", []⟩ : Lesson)
    ∧ (loadMasterState (createLesson store0 " ").1).lessons = [(⟨1, ""⟩ : LessonSummary)]
    ∧ getLessonById (createLesson store0 " ").1 1 = some (⟨1, "", []⟩ : Lesson) := by
  exact ⟨by decide, by decide, by decide⟩

/-- C2 (amended): `createLesson` trims the title and creates the lesson
unconditionally (empty-title rejection lives in the command layer's input
box, not in the store): for every title it returns a lesson with the
trimmed title and an empty notes sequence, persists its body, and makes
it the active lesson. -/
theorem createLesson_trims_and_persists (st : Store) (title : String) :
    (createLesson st title).2.title = jsTrim title
    ∧ (createLesson st title).2.notes = []
    ∧ getLessonById (createLesson st title).1 (createLesson st title).2.id
        = some (createLesson st title).2
    ∧ (loadMasterState (createLesson st title).1).activeLessonId
        = some (createLesson st title).2.id := by
  refine ⟨rfl, rfl, ?_, rfl⟩
  simp [createLesson, getLessonById, saveMasterState, writeLessonFile, loadMasterState]

/-- C4: when the master-state file is absent or its content does not
parse as JSON, `getAllLessons` returns the empty sequence and
`getActiveLesson` returns none; both functions are total, so no error
reaches the caller. -/
theorem corrupt_master_state_resilience (st : Store)
    (h : st.masterFile = none ∨ st.masterFile = some none) :
    getAllLessons st = [] ∧ getActiveLesson st = none := by
  rcases h with h | h <;>
    simp [getAllLessons, getActiveLesson, loadMasterState, emptyMasterState, h]

/-- C4 witness: the resilience theorem applied to a store whose
master-state file is present but unparsable. -/
theorem corrupt_master_state_resilience_witness :
    getAllLessons ⟨some none, fun _ => none⟩ = []
    ∧ getActiveLesson ⟨some none, fun _ => none⟩ = none :=
  corrupt_master_state_resilience ⟨some none, fun _ => none⟩ (Or.inr rfl)

/-- C6: saving a lesson and reading it back by its id returns the same
value (serialization is modelled as exact for the persisted shape). -/
theorem saveLesson_getLessonById_round_trip (st : Store) (L : Lesson) :
    getLessonById (saveLesson st L) L.id = some L := by
  simp [getLessonById, saveLesson, writeLessonFile]

/-- C9: `saveLesson` only overwrites the body keyed by `lesson.id`: the
master-state file (hence the summary list and the active-lesson pointer)
and every other lesson's stored body are unchanged. -/
theorem saveLesson_frame (st : Store) (L : Lesson) :
    (saveLesson st L).masterFile = st.masterFile
    ∧ getAllLessons (saveLesson st L) = getAllLessons st
    ∧ (loadMasterState (saveLesson st L)).activeLessonId = (loadMasterState st).activeLessonId
    ∧ ∀ j : Int, j ≠ L.id → (saveLesson st L).lessonFiles j = st.lessonFiles j := by
  refine ⟨rfl, rfl, rfl, ?_⟩
  intro j hj
  simp [saveLesson, writeLessonFile, hj]

/-- C9 witness: the frame theorem applied at a concrete store, lesson and
unrelated id. -/
theorem saveLesson_frame_witness :
    (saveLesson storeTwoLessons ⟨2, "U", []⟩).lessonFiles 1 = storeTwoLessons.lessonFiles 1 :=
  (saveLesson_frame storeTwoLessons ⟨2, "U", []⟩).2.2.2 1 (by decide)

/-- C10: with no review in progress (empty snapshot), `next` and `prev`
return immediately: the state is unchanged and no message is shown. -/
theorem review_nav_inactive_noop (i : Int) (b : Bool) :
    ReviewState.next ⟨[], i, b⟩ = (⟨[], i, b⟩, none)
    ∧ ReviewState.prev ⟨[], i, b⟩ = (⟨[], i, b⟩, none) := by
  exact ⟨rfl, rfl⟩

/-- C5: when `deleteLesson` succeeds, the active-lesson pointer is
reassigned exactly as specified: if the deleted lesson was active, the
new active id is the id of the first remaining entry of `getAllLessons`
(so none when the last lesson was deleted); otherwise the pointer is
unchanged. -/
theorem deleteLesson_active_reassignment (st : Store) (id : Int)
    (h : (loadMasterState st).lessons.findIdx? (fun l => l.id == id) ≠ none) :
    ∃ st', deleteLesson st id = Except.ok st'
      ∧ ((loadMasterState st).activeLessonId = some id →
           (loadMasterState st').activeLessonId
             = (getAllLessons st').head?.map (fun l => l.id))
      ∧ ((loadMasterState st).activeLessonId ≠ some id →
           (loadMasterState st').activeLessonId = (loadMasterState st).activeLessonId) := by
  rcases hidx : (loadMasterState st).lessons.findIdx? (fun l => l.id == id) with _ | idx
  · exact absurd hidx h
  refine ⟨saveMasterState (removeLessonFile st id)
      ⟨if (loadMasterState st).activeLessonId = some id then
          match (loadMasterState st).lessons.eraseIdx idx with
          | [] => none
          | l :: _ => some l.id
        else (loadMasterState st).activeLessonId,
        (loadMasterState st).lessons.eraseIdx idx⟩, ?_, ?_, ?_⟩
  · simp only [deleteLesson, hidx]
  · intro hact
    rw [loadMasterState_saveMasterState]
    simp only [getAllLessons, loadMasterState_saveMasterState, if_pos hact]
    rcases (loadMasterState st).lessons.eraseIdx idx with _ | ⟨l, t⟩ <;> simp
  · intro hact
    rw [loadMasterState_saveMasterState]
    simp only [if_neg hact]

/-- C5 witness: deleting the active lesson 1 from a two-lesson store: the
theorem yields a resulting store whose active lesson is the first
remaining entry. -/
theorem deleteLesson_active_reassignment_witness :
    ∃ st', deleteLesson storeTwoLessons 1 = Except.ok st'
      ∧ ((loadMasterState storeTwoLessons).activeLessonId = some 1 →
           (loadMasterState st').activeLessonId
             = (getAllLessons st').head?.map (fun l => l.id))
      ∧ ((loadMasterState storeTwoLessons).activeLessonId ≠ some 1 →
           (loadMasterState st').activeLessonId = (loadMasterState storeTwoLessons).activeLessonId) :=
  deleteLesson_active_reassignment storeTwoLessons 1 (by decide)

/-- C3: committing an annotation whose accumulated ranges are nonempty
behaves as specified: when every range has start > end, the filter leaves
nothing, `saveNoteToLesson` fails with the "No valid ranges provided"
error, and no store write occurs (the error carries no store); when at
least one valid range remains, a code note holding exactly the filtered
ranges is appended to the freshly re-read active lesson and saved. -/
theorem saveNoteToLesson_range_validation
    (st : Store) (relPath : String → String) (markdown : String)
    (sel : SelectionInfo) (L : Lesson)
    (hact : getActiveLesson st = some L)
    (hne : sel.ranges ≠ []) :
    (sel.ranges.filter (fun r => if r.1 > r.2 then false else true) = [] →
       saveNoteToLesson relPath st markdown (some sel)
         = Except.error "No valid ranges provided")
    ∧ ∀ v vs, sel.ranges.filter (fun r => if r.1 > r.2 then false else true) = v :: vs →
        saveNoteToLesson relPath st markdown (some sel)
          = Except.ok
              (saveLesson st
                { L with
                  notes := L.notes
                    ++ [LectureNote.code (relPath sel.file) (v :: vs) (jsTrim markdown)] },
               LectureNote.code (relPath sel.file) (v :: vs) (jsTrim markdown)) := by
  constructor
  · intro hfil
    simp only [saveNoteToLesson, hact, if_neg hne, hfil, if_pos]
  · intro v vs hfil
    simp only [saveNoteToLesson, hact, if_neg hne, hfil]
    simp

/-- C3 witness: committing with the single invalid range `[5, 2]` against
a store whose active lesson exists fails with the validation error. -/
theorem saveNoteToLesson_range_validation_witness :
    saveNoteToLesson (fun p => p) storeTwoLessons "note" (some ⟨"a.ts", [(5, 2)]⟩)
      = Except.error "No valid ranges provided" :=
  (saveNoteToLesson_range_validation storeTwoLessons (fun p => p) "note" ⟨"a.ts", [(5, 2)]⟩
      ⟨1, "A", []⟩ (by decide) (by decide)).1 (by decide)

/-- Any list whose elements all fail the pair-equality test filters to the
empty list. -/
theorem filter_pair_nil_of_any_false (l : List LineRange) (r : LineRange)
    (h : l.any (fun p => p.1 == r.1 && p.2 == r.2) = false) :
    l.filter (fun p => p.1 == r.1 && p.2 == r.2) = [] := by
  induction l with
  | nil => rfl
  | cons p t ih =>
    simp only [List.any_cons, Bool.or_eq_false_iff] at h
    simp [List.filter_cons, h.1, ih h.2]

/-- C8: with an annotation session in progress (an editor is stored),
`addRange` leaves the accumulated sequence unchanged when an identical
pair is already present, and appends the range otherwise, after which
exactly one entry matches the pair; `addRange` with the same range is
idempotent. -/
theorem addRange_idempotent_dedup {Ed : Type} (d : DecorationState Ed) (r : LineRange)
    (ed : Ed) (hed : d.currentEditor = some ed) :
    (d.currentRanges.any (fun p => p.1 == r.1 && p.2 == r.2) = true → addRange d r = d)
    ∧ (d.currentRanges.any (fun p => p.1 == r.1 && p.2 == r.2) = false →
        (addRange d r).currentRanges = d.currentRanges ++ [r]
        ∧ ((addRange d r).currentRanges.filter
            (fun p => p.1 == r.1 && p.2 == r.2)).length = 1)
    ∧ addRange (addRange d r) r = addRange d r := by
  refine ⟨?_, ?_, ?_⟩
  · intro h
    cases d
    cases hed
    simp [addRange, h]
  · intro h
    have hcur : (addRange d r).currentRanges = d.currentRanges ++ [r] := by
      cases d
      cases hed
      simp [addRange, h, applyDecorationsForRanges, clearDecorations]
    refine ⟨hcur, ?_⟩
    rw [hcur, List.filter_append, filter_pair_nil_of_any_false _ _ h]
    simp
  · by_cases h : d.currentRanges.any (fun p => p.1 == r.1 && p.2 == r.2) = true
    · have hd : addRange d r = d := by
        cases d
        cases hed
        simp [addRange, h]
      rw [hd]
      exact hd
    · have h' : d.currentRanges.any (fun p => p.1 == r.1 && p.2 == r.2) = false := by
        revert h
        cases d.currentRanges.any (fun p => p.1 == r.1 && p.2 == r.2) <;> simp
      have heq : addRange d r
          = (⟨d.currentRanges ++ [r], some ed⟩ : DecorationState Ed) := by
        cases d
        cases hed
        simp [addRange, h', applyDecorationsForRanges, clearDecorations]
      rw [heq]
      simp [addRange, List.any_append, h']

/-- C8 witness: the idempotence conjunct at a concrete session: adding
the range `[2, 5]` twice equals adding it once. -/
theorem addRange_idempotent_dedup_witness :
    addRange (addRange (⟨[], some ()⟩ : DecorationState Unit) (2, 5)) (2, 5)
      = addRange (⟨[], some ()⟩ : DecorationState Unit) (2, 5) :=
  (addRange_idempotent_dedup (⟨[], some ()⟩ : DecorationState Unit) (2, 5) () rfl).2.2

/-- C7: over an `Active` review of `n ≥ 1` notes with the cursor in
bounds, `start` on a store with a nonempty active lesson resets the
cursor to 0; `next` is a no-op with the end-reached notice exactly at
the last index and otherwise increments; `prev` is a no-op with the
start-reached notice exactly at index 0 and otherwise decrements; and
both keep the cursor within `[0, n-1]`. -/
theorem review_navigation_bounds (s : ReviewState)
    (hn : 1 ≤ s.lessonNotes.length)
    (hlo : 0 ≤ s.currentIndex)
    (hhi : s.currentIndex ≤ (s.lessonNotes.length : Int) - 1) :
    (∀ (st : Store) (L : Lesson), getActiveLesson st = some L → L.notes ≠ [] →
       ReviewState.start s st = (⟨L.notes, 0, false⟩, none))
    ∧ (s.currentIndex = (s.lessonNotes.length : Int) - 1 →
        ReviewState.next s = (s, some "Reached the end of the lecture notes."))
    ∧ (s.currentIndex < (s.lessonNotes.length : Int) - 1 →
        ReviewState.next s = ({ s with currentIndex := s.currentIndex + 1 }, none))
    ∧ (s.currentIndex = 0 →
        ReviewState.prev s = (s, some "Already at the first lecture note."))
    ∧ (0 < s.currentIndex →
        ReviewState.prev s = ({ s with currentIndex := s.currentIndex - 1 }, none))
    ∧ 0 ≤ (ReviewState.next s).1.currentIndex
    ∧ (ReviewState.next s).1.currentIndex ≤ ((ReviewState.next s).1.lessonNotes.length : Int) - 1
    ∧ 0 ≤ (ReviewState.prev s).1.currentIndex
    ∧ (ReviewState.prev s).1.currentIndex
        ≤ ((ReviewState.prev s).1.lessonNotes.length : Int) - 1 := by
  have hlen0 : ¬ s.lessonNotes.length = 0 := by omega
  refine ⟨?_, ?_, ?_, ?_, ?_, ?_⟩
  · intro st L hact hne
    have hL : ¬ L.notes.length = 0 := by
      simpa [List.length_eq_zero] using hne
    simp only [ReviewState.start, hact, if_neg hL]
  · intro he
    have hge : s.currentIndex ≥ (s.lessonNotes.length : Int) - 1 := le_of_eq he.symm
    simp only [ReviewState.next, if_neg hlen0, if_pos hge]
  · intro hlt
    have hge : ¬ s.currentIndex ≥ (s.lessonNotes.length : Int) - 1 := by omega
    simp only [ReviewState.next, if_neg hlen0, if_neg hge]
  · intro he
    have hle : s.currentIndex ≤ 0 := le_of_eq he
    simp only [ReviewState.prev, if_neg hlen0, if_pos hle]
  · intro hpos
    have hle : ¬ s.currentIndex ≤ 0 := by omega
    simp only [ReviewState.prev, if_neg hlen0, if_neg hle]
  · constructor
    · by_cases hge : s.currentIndex ≥ (s.lessonNotes.length : Int) - 1
      · simp only [ReviewState.next, if_neg hlen0, if_pos hge]
        exact hlo
      · simp only [ReviewState.next, if_neg hlen0, if_neg hge]
        omega
    constructor
    · by_cases hge : s.currentIndex ≥ (s.lessonNotes.length : Int) - 1
      · simp only [ReviewState.next, if_neg hlen0, if_pos hge]
        exact hhi
      · simp only [ReviewState.next, if_neg hlen0, if_neg hge]
        omega
    constructor
    · by_cases hle : s.currentIndex ≤ 0
      · simp only [ReviewState.prev, if_neg hlen0, if_pos hle]
        exact hlo
      · simp only [ReviewState.prev, if_neg hlen0, if_neg hle]
        omega
    · by_cases hle : s.currentIndex ≤ 0
      · simp only [ReviewState.prev, if_neg hlen0, if_pos hle]
        exact hhi
      · simp only [ReviewState.prev, if_neg hlen0, if_neg hle]
        omega

/-- C7 witness: over a three-note snapshot at the last index, `next` is a
no-op that shows the end-reached notice. -/
theorem review_navigation_bounds_witness :
    ReviewState.next
        ⟨[LectureNote.general "a", LectureNote.general "b", LectureNote.general "c"], 2, true⟩
      = (⟨[LectureNote.general "a", LectureNote.general "b", LectureNote.general "c"], 2, true⟩,
         some "Reached the end of the lecture notes.") :=
  (review_navigation_bounds
      ⟨[LectureNote.general "a", LectureNote.general "b", LectureNote.general "c"], 2, true⟩
      (by decide) (by decide) (by decide)).2.1 (by decide)
